import Mathlib

/-!
Verification of the torrent-title parser (Kotlin port of the Go ptt library).

The engine and its collaborators are embedded shallowly:
pure Go/Kotlin functions become Lean functions, the rule-evaluation loop
becomes a fold over an explicit engine state, Go panics / Kotlin exceptions
become values of an `Except` monad, and the field-state map becomes an
insertion-ordered association list.
-/

namespace PTT

/-! ## Character and string primitives shared by the transforms -/

/-- The characters matched by the Go regexp class backslash-s. -/
def isGoSpace (c : Char) : Bool :=
  c = ' ' || c = '\t' || c = '\n' || c = '\x0c' || c = '\r'

/-- Helper for `squashRuns`: the boolean records whether the previous
character was part of a run being replaced. -/
def squashRunsAux (p : Char → Bool) (r : Char) : Bool → List Char → List Char
  | _, [] => []
  | inRun, c :: cs =>
    if p c then
      if inRun then squashRunsAux p r true cs
      else r :: squashRunsAux p r true cs
    else c :: squashRunsAux p r false cs

/-- Replace every maximal run of characters satisfying `p` by the single
character `r`.  This is the effect of `regexp.ReplaceAllString` with a
pattern of the form `X+` and a one-character replacement. -/
def squashRuns (p : Char → Bool) (r : Char) (l : List Char) : List Char :=
  squashRunsAux p r false l

/-- `parse` first collapses whitespace runs and then underscore runs,
each to a single space (ptt.go lines 163-164 / part_002 lines 92-93). -/
def normalizeWs (s : String) : String :=
  String.mk (squashRuns (fun c => c = '_') ' ' (squashRuns isGoSpace ' ' s.data))

/-- Helper for `splitND`: accumulates the current digit piece (reversed);
the boolean records whether the previous character belonged to a non-digit
separator run. -/
def splitNDAux : Bool → List Char → List Char → List String
  | _, acc, [] => [String.mk acc.reverse]
  | inRun, acc, c :: cs =>
    if c.isDigit then splitNDAux false (c :: acc) cs
    else if inRun then splitNDAux true acc cs
    else String.mk acc.reverse :: splitNDAux true [] cs

/-- `non_digits_regex.Split(v, -1)`: split a string at every maximal run of
non-digit characters.  Leading and trailing runs produce empty pieces, as
with Go `regexp.Split`. -/
def splitND (s : String) : List String := splitNDAux false [] s.data

/-- `strings.Trim(s, " ")`: remove leading and trailing space characters. -/
def trimSpacesGo (s : String) : String :=
  String.mk (((s.data.dropWhile (· = ' ')).reverse.dropWhile (· = ' ')).reverse)

/-- Helper for `splitOnSpace`: accumulates the current piece (reversed). -/
def splitOnSpaceAux (acc : List Char) : List Char → List String
  | [] => [String.mk acc.reverse]
  | c :: cs =>
    if c = ' ' then String.mk acc.reverse :: splitOnSpaceAux [] cs
    else splitOnSpaceAux (c :: acc) cs

/-- `strings.Split(s, " ")`: split at every single space character. -/
def splitOnSpace (s : String) : List String := splitOnSpaceAux [] s.data

/-- Value of a list of decimal digit characters. -/
def digitsToNat (l : List Char) : Nat := l.foldl (fun a c => a * 10 + (c.toNat - 48)) 0

/-- `strconv.Atoi`: optional sign, one or more decimal digits, and the value
must fit in a 64-bit signed integer; everything else is an error (`none`). -/
def atoiGo (s : String) : Option Int :=
  match s.data with
  | [] => none
  | c :: cs =>
    let p : Bool × List Char :=
      if c = '-' then (true, cs) else if c = '+' then (false, cs) else (false, c :: cs)
    if p.2 ≠ [] ∧ p.2.all Char.isDigit then
      let v : Int := if p.1 then -(digitsToNat p.2 : Int) else (digitsToNat p.2 : Int)
      if -(2 ^ 63) ≤ v ∧ v ≤ 2 ^ 63 - 1 then some v else none
    else none

/-! ## The integer-range transform (part_000 lines 171-200, `to_int_range`) -/

/-- The token list of `to_int_range`: replace non-digit runs by spaces, trim
spaces, split on a space, and coerce each token with `Atoi`, failed tokens
becoming 0. -/
def intRangeNums (v : String) : List Int :=
  let parts := splitOnSpace (trimSpacesGo (String.mk (squashRuns (fun c => !c.isDigit) ' ' v.data)))
  parts.map (fun p => (atoiGo p).getD 0)

/-- If the list is exactly two numbers in increasing order, expand it to the
full inclusive run (part_000 lines 185-191). -/
def expandTwoAscending (nums : List Int) : List Int :=
  match nums with
  | [a, b] => if a < b then (List.range (b - a).toNat.succ).map (fun i => a + i) else nums
  | _ => nums

/-- The final validation loop of `to_int_range`: every adjacent pair must be
strictly consecutive ascending. -/
def isConsecutive : List Int → Bool
  | [] => true
  | [_] => true
  | a :: b :: rest => (a + 1 = b) && isConsecutive (b :: rest)

/-- `to_int_range` (part_000 lines 171-200).  `none` models the transform
setting the field value to nil (rejecting the match). -/
def to_int_range (v : String) : Option (List Int) :=
  let nums := expandTwoAscending (intRangeNums v)
  if isConsecutive nums then some nums else none

/-! ## The year-range transform (part_000 lines 137-169, `to_year`) -/

/-- `to_year` (part_000 lines 137-169).  The empty string models the
transform emptying the field value. -/
def to_year (v : String) : String :=
  let parts := splitND v
  match parts with
  | [] => ""
  | [single] => single
  | start :: endS :: _ =>
    match atoiGo endS with
    | none => start
    | some endY0 =>
      match atoiGo start with
      | none => ""
      | some startY =>
        let endY := if endY0 < 100 then endY0 + startY - startY % 100 else endY0
        if endY ≤ startY then "" else toString startY ++ "-" ++ toString endY

/-! ## The data model of the rule engine -/

/-- A modelled runtime fault: Go panics with a `runtime.Error` value
(slice index out of range, failed type assertion, nil dereference), or an
explicit error raised by a handler collaborator.  Go's recover barrier and
Kotlin's catch block both catch every such fault. -/
inductive PErr where
  | indexOutOfRange
  | typeAssertion
  | nilDereference
  | custom : String → PErr
deriving DecidableEq, Repr

/-- The dynamically-typed `value` slot of a field state: Go `any` / Kotlin
`Any?` restricted to the types the rule table actually stores.  A value set
is modelled by its insertion-ordered duplicate-free list of values. -/
inductive Value where
  | vstr : String → Value
  | vbool : Bool → Value
  | vints : List Int → Value
  | vset : List String → Value
deriving DecidableEq, Repr

/-- `parseMeta` (ptt.go lines 129-135) / `ParseMeta` (part_002 lines 76-82).
`value = none` models the nil / null value slot. -/
structure ParseMeta where
  mIndex : Int := 0
  mValue : String := ""
  value : Option Value := none
  remove : Bool := false
  processed : Bool := false
deriving DecidableEq, Repr

/-- The shared field-state map, modelled as an insertion-ordered association
list (Kotlin's LinkedHashMap; the Go map's unordered iteration is treated via
permutation invariance). -/
abbrev ResultMap := List (String × ParseMeta)

def lookupRM (m : ResultMap) (k : String) : Option ParseMeta :=
  match m.find? (fun p => p.1 == k) with
  | some p => some p.2
  | none => none

def insertRM (m : ResultMap) (k : String) (v : ParseMeta) : ResultMap :=
  if m.any (fun p => p.1 == k) then
    m.map (fun p => if p.1 == k then (k, v) else p)
  else m ++ [(k, v)]

def eraseRM (m : ResultMap) (k : String) : ResultMap :=
  m.filter (fun p => p.1 != k)

/-- `value_set_field_map` (ptt.go lines 137-148 / part_002 lines 84-88). -/
def hasValueSet (field : String) : Bool :=
  field == "audio" || field == "channels" || field == "hdr" ||
  field == "languages" || field == "releaseTypes"

/-- A rule descriptor (`handler`, part_000 lines 14-29).  The regex pattern is
abstracted to a function returning the submatch index slice of the first
match (`FindStringSubmatchIndex`); an empty slice means no match.  The
validator, transform and processor collaborators may raise a runtime fault. -/
structure Handler where
  field : String
  pattern : Option (String → List Int) := none
  validateMatch : Option (String → List Int → Except PErr Bool) := none
  transform : Option (String → ParseMeta → ResultMap → Except PErr ParseMeta) := none
  process : Option (String → ParseMeta → ResultMap → Except PErr (ParseMeta × ResultMap)) := none
  remove : Bool := false
  keepMatching : Bool := false
  skipIfFirst : Bool := false
  skipIfBefore : List String := []
  skipFromTitle : Bool := false
  matchGroup : Nat := 0
  valueGroup : Nat := 0

/-! ## Engine helper operations -/

/-- Go slice indexing `idxs[i]`: out of range panics. -/
def getIdx (idxs : List Int) (i : Nat) : Except PErr Int :=
  match idxs.get? i with
  | some v => .ok v
  | none => .error .indexOutOfRange

/-- Go string slicing `s[a:b]` (and Kotlin `substring(a, b)`): out-of-bounds
or inverted indices panic / throw. -/
def substrGo (s : String) (a b : Int) : Except PErr String :=
  if 0 ≤ a ∧ a ≤ b ∧ b ≤ (s.length : Int) then
    .ok (String.mk ((s.data.drop a.toNat).take (b - a).toNat))
  else .error .indexOutOfRange

/-- `strings.Contains(s, sub)`. -/
def containsGo (s sub : String) : Bool :=
  decide (sub.data <:+: s.data)

/-- `before_title_regex.FindString(title)` for the anchored Go pattern
matching a bracketed group at the very start of the title: the result is
the whole bracketed segment, or the empty string when there is none. -/
def findBeforeTitle (s : String) : String :=
  match s.data with
  | '[' :: rest =>
    let run := rest.takeWhile (fun c => c != '[' && c != ']')
    match rest.dropWhile (fun c => c != '[' && c != ']') with
    | ']' :: _ => if run.isEmpty then "" else String.mk ('[' :: (run ++ [']']))
    | _ => ""
  | _ => ""

/-- The skip-if-first decision of the Go engine (ptt.go lines 187-199):
iterate the field-state map, considering only entries of other fields;
skip when at least one other field exists and none of them has its match
at or before the candidate's start offset. -/
def goSkipIfFirst (field : String) (start : Int) (result : ResultMap) : Bool :=
  let hasOther := result.any (fun p => p.1 != field)
  let hasBefore := result.any (fun p => p.1 != field && decide (p.2.mIndex ≤ start))
  hasOther && !hasBefore

/-- The skip-if-first decision of the Kotlin port (part_002 lines 129-133):
unlike the Go engine, `hasBefore` inspects every entry of the map, the
candidate's own field included. -/
def ktSkipIfFirst (field : String) (start : Int) (result : ResultMap) : Bool :=
  let hasOther := result.any (fun p => p.1 != field)
  let hasBefore := result.any (fun p => decide (p.2.mIndex ≤ start))
  hasOther && !hasBefore

/-- The skip-if-before policy (ptt.go lines 205-215 / part_002 136-145),
identical in both engines. -/
def skipIfBeforeCheck (fields : List String) (start : Int) (result : ResultMap) : Bool :=
  fields.any (fun sf =>
    match lookupRM result sf with
    | some fm => decide (start < fm.mIndex)
    | none => false)

/-- The effective skip-from-title flag of a Go rule application: the rule's
own flag, or the override of ptt.go lines 227-229 when the raw matched text
is contained in the leading bracketed segment of the current title. -/
def goEffectiveSkip (h : Handler) (title raw : String) : Bool :=
  h.skipFromTitle || containsGo (findBeforeTitle title) raw

/-- The title-boundary update of one surviving rule application
(ptt.go lines 282-289 / part_002 lines 220-226): shrink to the match offset
unless the application is skip-from-title, at offset 0, or at or past the
boundary; then, for a removed skip-from-title match whose offset is below
the boundary, retract the boundary by the removed length. -/
def goBoundaryUpdate (skipFromTitle removed : Bool) (mIndex : Int) (mLen : Nat)
    (endOfTitle : Int) : Int :=
  let e1 := if skipFromTitle = false ∧ mIndex ≠ 0 ∧ mIndex < endOfTitle then mIndex else endOfTitle
  if removed = true ∧ skipFromTitle = true ∧ mIndex < e1 then e1 - (mLen : Int) else e1

/-- The per-parse engine state: the shrinking working title, the field-state
map, and the tracked claimed-boundary offset. -/
structure EngState where
  title : String
  result : ResultMap
  endOfTitle : Int
deriving Repr

/-- Outcome of the pattern phase of one rule: either the rule is skipped
(one of the `continue` statements fired), or evaluation proceeds with the
current field state, map, and effective skip-from-title flag. -/
inductive PhaseOut where
  | skip
  | proceed (m : Option ParseMeta) (res : ResultMap) (skipFromTitle : Bool)

/-! ## The Go engine (ptt.go lines 150-407) -/

/-- The pattern-matching phase of one Go rule application
(ptt.go lines 172-249): eligibility, matching, validation, the two skip
policies, group extraction, the bracket override of the skip-from-title
flag, and the field-state update. -/
def goPatternPhase (st : EngState) (h : Handler) : Except PErr PhaseOut :=
  let field := h.field
  let mOpt := lookupRM st.result field
  match h.pattern with
  | none => .ok (.proceed mOpt st.result h.skipFromTitle)
  | some pat =>
    if mOpt.isSome && !h.keepMatching then .ok .skip
    else
      let idxs := pat st.title
      if idxs.length = 0 then .ok .skip
      else do
        let ok ← match h.validateMatch with
          | some v => v st.title idxs
          | none => pure true
        if !ok then return .skip
        let i0 ← getIdx idxs 0
        let i1 ← getIdx idxs 1
        if h.skipIfFirst && goSkipIfFirst field i0 st.result then return .skip
        if skipIfBeforeCheck h.skipIfBefore i0 st.result then return .skip
        let rawMatchedPart ← substrGo st.title i0 i1
        let matchedPart ←
          if idxs.length > 2 then
            if h.valueGroup = 0 then do
              let a ← getIdx idxs 2
              let b ← getIdx idxs 3
              substrGo st.title a b
            else if idxs.length > h.valueGroup * 2 then do
              let a ← getIdx idxs (h.valueGroup * 2)
              let b ← getIdx idxs (h.valueGroup * 2 + 1)
              substrGo st.title a b
            else pure rawMatchedPart
          else pure rawMatchedPart
        let skipFromTitle := goEffectiveSkip h st.title rawMatchedPart
        let m0 : ParseMeta := match mOpt with
          | some m => m
          | none => { value := if hasValueSet field then some (.vset []) else none }
        let m1 : ParseMeta :=
          { m0 with
            mIndex := i0
            mValue := rawMatchedPart
            value := if hasValueSet field then m0.value else some (.vstr matchedPart) }
        let m2 ←
          if h.matchGroup ≠ 0 then do
            let a ← getIdx idxs (h.matchGroup * 2)
            let b ← getIdx idxs (h.matchGroup * 2 + 1)
            let s ← substrGo st.title a b
            pure { m1 with mIndex := a, mValue := s }
          else pure m1
        return .proceed (some m2) (insertRM st.result field m2) skipFromTitle

/-- The custom-processing phase of one Go rule application
(ptt.go lines 252-262).  The boolean result is `mFound`: whether the field
now has an installed state.  The processor sees and may mutate the shared
map; the returned field state replaces the map entry, mirroring the fact
that in the source every processor returns the pointer it received. -/
def goProcessPhase (title : String) (h : Handler) (mIn : Option ParseMeta)
    (res : ResultMap) : Except PErr (Option ParseMeta × ResultMap × Bool) :=
  match h.process with
  | none => .ok (mIn, res, mIn.isSome)
  | some proc =>
    match mIn with
    | some m => do
      let (m', res') ← proc title m res
      return (some m', insertRM res' h.field m', true)
    | none => do
      let (m', res') ← proc title {} res
      if m'.value.isSome then
        return (some m', insertRM res' h.field m', true)
      else
        return (some m', res', false)

/-- One iteration of the Go rule loop (ptt.go lines 168-293): pattern phase,
processor, transform, rejection, re-skip check, title mutation and title
boundary tracking. -/
def goStep (st : EngState) (h : Handler) : Except PErr EngState := do
  match ← goPatternPhase st h with
  | .skip => return st
  | .proceed mIn res1 skipFromTitle => do
    let (m?, res2, mFound) ← goProcessPhase st.title h mIn res1
    match m? with
    | none => throw .nilDereference
    | some m3 => do
      let m4 ←
        if m3.value.isSome then
          match h.transform with
          | some tr => tr st.title m3 res2
          | none => pure m3
        else pure m3
      let res3 := if mFound then insertRM res2 h.field m4 else res2
      if m4.value.isNone then
        return { st with result := eraseRM res3 h.field }
      else if m4.processed && !h.keepMatching && !hasValueSet h.field then
        return { st with result := res3 }
      else do
        let (title', m5) ←
          if h.remove || m4.remove then do
            let pre ← substrGo st.title 0 m4.mIndex
            let post ← substrGo st.title (m4.mIndex + (m4.mValue.length : Int)) (st.title.length : Int)
            pure (pre ++ post, { m4 with remove := true })
          else pure (st.title, m4)
        let e1 := goBoundaryUpdate skipFromTitle m5.remove m5.mIndex m5.mValue.length st.endOfTitle
        let m6 := { m5 with remove := false, processed := true }
        return { title := title', result := insertRM res3 h.field m6, endOfTitle := e1 }

/-- The whole Go rule loop over an initial normalized title. -/
def goParseCore (rawTitle : String) (hs : List Handler) : Except PErr EngState :=
  let title := normalizeWs rawTitle
  hs.foldlM goStep { title := title, result := [], endOfTitle := (title.length : Int) }

/-- The public result record (ptt.go lines 76-120 / part_002 lines 8-55).
`err` models the internal error slot and `is_normalized` the idempotence
flag of the normalizer; both are excluded from serialization in the source. -/
structure Result where
  audio : List String := []
  bitDepth : String := ""
  channels : List String := []
  codec : String := ""
  commentary : Bool := false
  complete : Bool := false
  container : String := ""
  convert : Bool := false
  date : String := ""
  documentary : Bool := false
  dubbed : Bool := false
  edition : String := ""
  episodeCode : String := ""
  episodes : List Int := []
  extended : Bool := false
  extension : String := ""
  group : String := ""
  hdr : List String := []
  hardcoded : Bool := false
  languages : List String := []
  network : String := ""
  proper : Bool := false
  quality : String := ""
  region : String := ""
  releaseTypes : List String := []
  remastered : Bool := false
  repack : Bool := false
  resolution : String := ""
  retail : Bool := false
  seasons : List Int := []
  site : String := ""
  size : String := ""
  subbed : Bool := false
  threeD : String := ""
  title : String := ""
  uncensored : Bool := false
  unrated : Bool := false
  upscaled : Bool := false
  volumes : List Int := []
  year : String := ""
  err : Option PErr := none
  is_normalized : Bool := false
deriving DecidableEq, Repr

/-- One iteration of the Go result-assembly loop (ptt.go lines 295-402):
copy a field state's value into the result record, with the type assertion
of the corresponding switch case; unknown fields fall through unchanged. -/
def applyFieldGo (r : Result) (field : String) (v? : Option Value) : Except PErr Result :=
  if field == "audio" then match v? with
    | some (.vset l) => .ok { r with audio := l } | _ => .error .typeAssertion
  else if field == "bitDepth" then match v? with
    | some (.vstr s) => .ok { r with bitDepth := s } | _ => .error .typeAssertion
  else if field == "channels" then match v? with
    | some (.vset l) => .ok { r with channels := l } | _ => .error .typeAssertion
  else if field == "codec" then match v? with
    | some (.vstr s) => .ok { r with codec := s } | _ => .error .typeAssertion
  else if field == "commentary" then match v? with
    | some (.vbool b) => .ok { r with commentary := b } | _ => .error .typeAssertion
  else if field == "complete" then match v? with
    | some (.vbool b) => .ok { r with complete := b } | _ => .error .typeAssertion
  else if field == "container" then match v? with
    | some (.vstr s) => .ok { r with container := s } | _ => .error .typeAssertion
  else if field == "convert" then match v? with
    | some (.vbool b) => .ok { r with convert := b } | _ => .error .typeAssertion
  else if field == "date" then match v? with
    | some (.vstr s) => .ok { r with date := s } | _ => .error .typeAssertion
  else if field == "documentary" then match v? with
    | some (.vbool b) => .ok { r with documentary := b } | _ => .error .typeAssertion
  else if field == "dubbed" then match v? with
    | some (.vbool b) => .ok { r with dubbed := b } | _ => .error .typeAssertion
  else if field == "edition" then match v? with
    | some (.vstr s) => .ok { r with edition := s } | _ => .error .typeAssertion
  else if field == "episodeCode" then match v? with
    | some (.vstr s) => .ok { r with episodeCode := s } | _ => .error .typeAssertion
  else if field == "episodes" then match v? with
    | some (.vints l) => .ok { r with episodes := l } | _ => .error .typeAssertion
  else if field == "extended" then match v? with
    | some (.vbool b) => .ok { r with extended := b } | _ => .error .typeAssertion
  else if field == "extension" then match v? with
    | some (.vstr s) => .ok { r with extension := s } | _ => .error .typeAssertion
  else if field == "group" then match v? with
    | some (.vstr s) => .ok { r with group := s } | _ => .error .typeAssertion
  else if field == "hardcoded" then match v? with
    | some (.vbool b) => .ok { r with hardcoded := b } | _ => .error .typeAssertion
  else if field == "hdr" then match v? with
    | some (.vset l) => .ok { r with hdr := l } | _ => .error .typeAssertion
  else if field == "languages" then match v? with
    | some (.vset l) => .ok { r with languages := l } | _ => .error .typeAssertion
  else if field == "network" then match v? with
    | some (.vstr s) => .ok { r with network := s } | _ => .error .typeAssertion
  else if field == "proper" then match v? with
    | some (.vbool b) => .ok { r with proper := b } | _ => .error .typeAssertion
  else if field == "region" then match v? with
    | some (.vstr s) => .ok { r with region := s } | _ => .error .typeAssertion
  else if field == "remastered" then match v? with
    | some (.vbool b) => .ok { r with remastered := b } | _ => .error .typeAssertion
  else if field == "repack" then match v? with
    | some (.vbool b) => .ok { r with repack := b } | _ => .error .typeAssertion
  else if field == "resolution" then match v? with
    | some (.vstr s) => .ok { r with resolution := s } | _ => .error .typeAssertion
  else if field == "retail" then match v? with
    | some (.vbool b) => .ok { r with retail := b } | _ => .error .typeAssertion
  else if field == "seasons" then match v? with
    | some (.vints l) => .ok { r with seasons := l } | _ => .error .typeAssertion
  else if field == "size" then match v? with
    | some (.vstr s) => .ok { r with size := s } | _ => .error .typeAssertion
  else if field == "site" then match v? with
    | some (.vstr s) => .ok { r with site := s } | _ => .error .typeAssertion
  else if field == "quality" then match v? with
    | some (.vstr s) => .ok { r with quality := s } | _ => .error .typeAssertion
  else if field == "releaseTypes" then match v? with
    | some (.vset l) => .ok { r with releaseTypes := l } | _ => .error .typeAssertion
  else if field == "subbed" then match v? with
    | some (.vbool b) => .ok { r with subbed := b } | _ => .error .typeAssertion
  else if field == "threeD" then match v? with
    | some (.vstr s) => .ok { r with threeD := s } | _ => .error .typeAssertion
  else if field == "uncensored" then match v? with
    | some (.vbool b) => .ok { r with uncensored := b } | _ => .error .typeAssertion
  else if field == "unrated" then match v? with
    | some (.vbool b) => .ok { r with unrated := b } | _ => .error .typeAssertion
  else if field == "upscaled" then match v? with
    | some (.vbool b) => .ok { r with upscaled := b } | _ => .error .typeAssertion
  else if field == "volumes" then match v? with
    | some (.vints l) => .ok { r with volumes := l } | _ => .error .typeAssertion
  else if field == "year" then match v? with
    | some (.vstr s) => .ok { r with year := s } | _ => .error .typeAssertion
  else .ok r

/-- The Go result-assembly loop over the final field-state map. -/
def goAssemble (res : ResultMap) : Except PErr Result :=
  res.foldlM (fun r p => applyFieldGo r p.1 p.2.value) {}

/-- The body of Go `parse` before the recover barrier, parameterized by the
title-cleanup collaborator `f` (`clean_title`): run the rule loop, assemble
the record, and compute the clean title from the leftover span
(ptt.go line 404). -/
def goParseE (f : String → String) (rawTitle : String) (hs : List Handler) :
    Except PErr Result := do
  let st ← goParseCore rawTitle hs
  let r ← goAssemble st.result
  let tt ← substrGo st.title 0 (max (min st.endOfTitle (st.title.length : Int)) 0)
  return { r with title := f tt }

/-- Go `parse` (ptt.go lines 150-407): the recover barrier catches any
runtime fault raised during the pass and reports it on an otherwise
zero-valued result. -/
def goParse (f : String → String) (rawTitle : String) (hs : List Handler) : Result :=
  match goParseE f rawTitle hs with
  | .ok r => r
  | .error e => { err := some e }

/-- `GetPartialParser` (ptt.go lines 413-429) / `getPartialParser`
(part_002 lines 309-314): keep, in table order, exactly the rules whose
field is among the requested names, and parse with the reduced table. -/
def getPartialParser (f : String → String) (allHandlers : List Handler)
    (fieldNames : List String) : String → Result :=
  let selectedHandlers := allHandlers.filter (fun h => fieldNames.contains h.field)
  fun title => goParse f title selectedHandlers

/-! ## The Kotlin engine (part_002 lines 90-307) -/

/-- The Kotlin port's local bracketed-group search (part_002 line 162):
unlike the Go `before_title_regex`, the pattern is not anchored, so the
first bracketed group anywhere in the title is found. -/
def ktFindBracket : List Char → Option String
  | [] => none
  | '[' :: rest =>
    let run := rest.takeWhile (fun c => c != '[' && c != ']')
    match rest.dropWhile (fun c => c != '[' && c != ']') with
    | ']' :: _ => if run.isEmpty then ktFindBracket rest else some (String.mk ('[' :: (run ++ [']'])))
    | _ => ktFindBracket rest
  | _ :: rest => ktFindBracket rest

/-- The value the Kotlin port computes at part_002 lines 162-164 — and then
never uses: the boundary update reads the handler's own flag instead. -/
def ktShouldSkipFromTitle (title raw : String) : Bool :=
  match ktFindBracket title.data with
  | some v => containsGo v raw
  | none => false

/-- The pattern-matching phase of one Kotlin rule application
(part_002 lines 104-188).  Differences from the Go phase: the skip-if-first
check also inspects the candidate's own field, non-participating groups are
guarded for a nonzero value group and for the match group, and the computed
bracket override of the skip-from-title flag is dead. -/
def ktPatternPhase (st : EngState) (h : Handler) : Except PErr PhaseOut :=
  let field := h.field
  let mOpt := lookupRM st.result field
  match h.pattern with
  | none => .ok (.proceed mOpt st.result h.skipFromTitle)
  | some pat =>
    if mOpt.isSome && !h.keepMatching then .ok .skip
    else
      let idxs := pat st.title
      if idxs.length = 0 then .ok .skip
      else do
        let ok ← match h.validateMatch with
          | some v => v st.title idxs
          | none => pure true
        if !ok then return .skip
        let i0 ← getIdx idxs 0
        let i1 ← getIdx idxs 1
        if h.skipIfFirst && ktSkipIfFirst field i0 st.result then return .skip
        if skipIfBeforeCheck h.skipIfBefore i0 st.result then return .skip
        let rawMatchedPart ← substrGo st.title i0 i1
        let matchedPart ←
          if idxs.length > 2 then
            if h.valueGroup = 0 then do
              let a ← getIdx idxs 2
              let b ← getIdx idxs 3
              substrGo st.title a b
            else if idxs.length > h.valueGroup * 2 then do
              let a ← getIdx idxs (h.valueGroup * 2)
              let b ← getIdx idxs (h.valueGroup * 2 + 1)
              if 0 ≤ a ∧ 0 ≤ b then substrGo st.title a b else pure rawMatchedPart
            else pure rawMatchedPart
          else pure rawMatchedPart
        let _dead := ktShouldSkipFromTitle st.title rawMatchedPart
        let m0 : ParseMeta := match mOpt with
          | some m => m
          | none => { value := if hasValueSet field then some (.vset []) else none }
        let m1 : ParseMeta :=
          { m0 with
            mIndex := i0
            mValue := rawMatchedPart
            value := if hasValueSet field then m0.value else some (.vstr matchedPart) }
        let m2 ←
          if h.matchGroup ≠ 0 then do
            let a ← getIdx idxs (h.matchGroup * 2)
            let b ← getIdx idxs (h.matchGroup * 2 + 1)
            if 0 ≤ a ∧ 0 ≤ b then do
              let s ← substrGo st.title a b
              pure { m1 with mIndex := a, mValue := s }
            else pure m1
          else pure m1
        return .proceed (some m2) (insertRM st.result field m2) h.skipFromTitle

/-- The custom-processing phase of one Kotlin rule application
(part_002 lines 190-200): when the processor is invoked on a blank state and
yields a null value, the local state becomes null (the Go engine instead
keeps the returned state and its `mFound` flag false). -/
def ktProcessPhase (title : String) (h : Handler) (mIn : Option ParseMeta)
    (res : ResultMap) : Except PErr (Option ParseMeta × ResultMap) :=
  match h.process with
  | none => .ok (mIn, res)
  | some proc =>
    match mIn with
    | some m => do
      let (m', res') ← proc title m res
      return (some m', insertRM res' h.field m')
    | none => do
      let (m', res') ← proc title {} res
      if m'.value.isSome then
        return (some m', insertRM res' h.field m')
      else
        return (none, res')

/-- One iteration of the Kotlin rule loop (part_002 lines 98-230). -/
def ktStep (st : EngState) (h : Handler) : Except PErr EngState := do
  match ← ktPatternPhase st h with
  | .skip => return st
  | .proceed mIn res1 skipFromTitle => do
    let (m?, res2) ← ktProcessPhase st.title h mIn res1
    let m4? ← match m? with
      | some m3 =>
        if m3.value.isSome then
          match h.transform with
          | some tr => do
            let m' ← tr st.title m3 res2
            pure (some m')
          | none => pure (some m3)
        else pure (some m3)
      | none => pure (none : Option ParseMeta)
    match m4? with
    | none => return { st with result := eraseRM res2 h.field }
    | some m4 =>
      let res3 := insertRM res2 h.field m4
      if m4.value.isNone then
        return { st with result := eraseRM res2 h.field }
      else if m4.processed && !h.keepMatching && !hasValueSet h.field then
        return { st with result := res3 }
      else do
        let (title', m5) ←
          if h.remove || m4.remove then do
            let pre ← substrGo st.title 0 m4.mIndex
            let post ← substrGo st.title (m4.mIndex + (m4.mValue.length : Int)) (st.title.length : Int)
            pure (pre ++ post, { m4 with remove := true })
          else pure (st.title, m4)
        let e1 := goBoundaryUpdate skipFromTitle m5.remove m5.mIndex m5.mValue.length st.endOfTitle
        let m6 := { m5 with remove := false, processed := true }
        return { title := title', result := insertRM res3 h.field m6, endOfTitle := e1 }

/-- The whole Kotlin rule loop over an initial normalized title. -/
def ktParseCore (rawTitle : String) (hs : List Handler) : Except PErr EngState :=
  let title := normalizeWs rawTitle
  hs.foldlM ktStep { title := title, result := [], endOfTitle := (title.length : Int) }

/-- `extractString` (part_002 lines 282-284): a safe cast with default. -/
def ktExtractString (m? : Option ParseMeta) : String :=
  match m? with
  | some m => match m.value with
    | some (.vstr s) => s
    | _ => ""
  | none => ""

/-- `extractBoolean` (part_002 lines 286-288). -/
def ktExtractBoolean (m? : Option ParseMeta) : Bool :=
  match m? with
  | some m => match m.value with
    | some (.vbool b) => b
    | _ => false
  | none => false

/-- `extractStringList` (part_002 lines 290-296): a value set yields its
values; a plain list yields its elements rendered as strings. -/
def ktExtractStringList (m? : Option ParseMeta) : List String :=
  match m? with
  | some m => match m.value with
    | some (.vset l) => l
    | some (.vints l) => l.map toString
    | _ => []
  | none => []

/-- `extractIntList` (part_002 lines 298-303). -/
def ktExtractIntList (m? : Option ParseMeta) : List Int :=
  match m? with
  | some m => match m.value with
    | some (.vints l) => l
    | _ => []
  | none => []

/-- The Kotlin result construction (part_002 lines 233-274), parameterized by
the title-cleanup collaborator `f` (`cleanTitle`). -/
def ktAssemble (f : String → String) (st : EngState) : Except PErr Result := do
  let tt ← substrGo st.title 0 (max (min st.endOfTitle (st.title.length : Int)) 0)
  return {
    audio := ktExtractStringList (lookupRM st.result "audio")
    bitDepth := ktExtractString (lookupRM st.result "bitDepth")
    channels := ktExtractStringList (lookupRM st.result "channels")
    codec := ktExtractString (lookupRM st.result "codec")
    commentary := ktExtractBoolean (lookupRM st.result "commentary")
    complete := ktExtractBoolean (lookupRM st.result "complete")
    container := ktExtractString (lookupRM st.result "container")
    convert := ktExtractBoolean (lookupRM st.result "convert")
    date := ktExtractString (lookupRM st.result "date")
    documentary := ktExtractBoolean (lookupRM st.result "documentary")
    dubbed := ktExtractBoolean (lookupRM st.result "dubbed")
    edition := ktExtractString (lookupRM st.result "edition")
    episodeCode := ktExtractString (lookupRM st.result "episodeCode")
    episodes := ktExtractIntList (lookupRM st.result "episodes")
    extended := ktExtractBoolean (lookupRM st.result "extended")
    extension := ktExtractString (lookupRM st.result "extension")
    group := ktExtractString (lookupRM st.result "group")
    hdr := ktExtractStringList (lookupRM st.result "hdr")
    hardcoded := ktExtractBoolean (lookupRM st.result "hardcoded")
    languages := ktExtractStringList (lookupRM st.result "languages")
    network := ktExtractString (lookupRM st.result "network")
    proper := ktExtractBoolean (lookupRM st.result "proper")
    quality := ktExtractString (lookupRM st.result "quality")
    region := ktExtractString (lookupRM st.result "region")
    releaseTypes := ktExtractStringList (lookupRM st.result "releaseTypes")
    remastered := ktExtractBoolean (lookupRM st.result "remastered")
    repack := ktExtractBoolean (lookupRM st.result "repack")
    resolution := ktExtractString (lookupRM st.result "resolution")
    retail := ktExtractBoolean (lookupRM st.result "retail")
    seasons := ktExtractIntList (lookupRM st.result "seasons")
    site := ktExtractString (lookupRM st.result "site")
    size := ktExtractString (lookupRM st.result "size")
    subbed := ktExtractBoolean (lookupRM st.result "subbed")
    threeD := ktExtractString (lookupRM st.result "threeD")
    title := f tt
    uncensored := ktExtractBoolean (lookupRM st.result "uncensored")
    unrated := ktExtractBoolean (lookupRM st.result "unrated")
    upscaled := ktExtractBoolean (lookupRM st.result "upscaled")
    volumes := ktExtractIntList (lookupRM st.result "volumes")
    year := ktExtractString (lookupRM st.result "year") }

/-- The body of Kotlin `parse` inside the try block. -/
def ktParseE (f : String → String) (rawTitle : String) (hs : List Handler) :
    Except PErr Result := do
  let st ← ktParseCore rawTitle hs
  ktAssemble f st

/-- Kotlin `parse` (part_002 lines 90-280): the catch block turns any
exception into a default result carrying the error. -/
def ktParse (f : String → String) (rawTitle : String) (hs : List Handler) : Result :=
  match ktParseE f rawTitle hs with
  | .ok r => r
  | .error e => { err := some e }

/-! ## The normalizer (normalizer.go) -/

/-- Order-preserving first-occurrence deduplication (the seen-map loop of
`normalize_audio`, normalizer.go lines 20-28). -/
def dedupKeepFirst : List String → List String → List String
  | [], _ => []
  | x :: xs, seen =>
    if seen.contains x then dedupKeepFirst xs seen
    else x :: dedupKeepFirst xs (x :: seen)

/-- `normalize_audio` (normalizer.go lines 5-29). -/
def normalize_audio (audio : List String) : List String :=
  let isChanged := audio.any (fun a => a == "AC3" || a == "EAC3")
  let mapped := audio.map (fun a => if a = "AC3" then "DD" else if a = "EAC3" then "DDP" else a)
  if !isChanged then audio else dedupKeepFirst mapped []

/-- `normalize_codec` (normalizer.go lines 31-47). -/
def normalize_codec (codec : String) : String :=
  let c := codec.toLower
  if c = "avc" ∨ c = "h264" ∨ c = "x264" then "AVC"
  else if c = "hevc" ∨ c = "h265" ∨ c = "x265" then "HEVC"
  else if c = "mpeg2" then "MPEG-2"
  else if c = "divx" ∨ c = "dvix" then "DivX"
  else if c = "xvid" then "Xvid"
  else c

/-- `normalize_release_types` (normalizer.go lines 49-59). -/
def normalize_release_types (rtypes : List String) : List String :=
  rtypes.map (fun t => if t = "OAV" then "OVA" else if t = "ODA" then "OAD" else t)

/-- `normalize_resolution` (normalizer.go lines 61-71). -/
def normalize_resolution (resolution : String) : String :=
  let c := resolution.toLower
  if c = "2160p" then "4k" else if c = "1440p" then "2k" else c

/-- `(*Result).Normalize` (normalizer.go lines 73-85): a no-op on a failed
result, a no-op when the idempotence flag is already set, and otherwise one
pass over the four synonym tables followed by setting the flag. -/
def Result.normalize (r : Result) : Result :=
  if r.err.isSome then r
  else if !r.is_normalized then
    { r with
      audio := normalize_audio r.audio
      codec := normalize_codec r.codec
      releaseTypes := normalize_release_types r.releaseTypes
      resolution := normalize_resolution r.resolution
      is_normalized := true }
  else r

/-! ## The group false-positive processor (part_000 lines 3544-3562) -/

/-- The anchored whole-string test of the Go pattern matching a bracketed
match text (a leading bracket, at least one further character, and a
closing bracket at the very end; the dot of the pattern excludes
newlines). -/
def matchesBracketWhole (s : String) : Bool :=
  match s.data with
  | '[' :: c :: rest =>
    !rest.isEmpty && (c :: rest).getLast? == some ']' &&
      ((c :: rest).dropLast.all (fun x => x != '\n'))
  | _ => false

/-- The group false-positive processor (part_000 lines 3544-3562): when the
group was matched from a whole bracketed segment and some other recorded
match starts strictly inside that segment (at a positive offset before its
end), clear the group value; otherwise reset the match position data. -/
def groupFalsePositive (m : ParseMeta) (result : ResultMap) : ParseMeta :=
  if m.mValue ≠ "" ∧ matchesBracketWhole m.mValue then
    if result.any (fun p =>
        decide (0 < p.2.mIndex) && decide (p.2.mIndex < m.mIndex + (m.mValue.length : Int))) then
      { m with value := some (.vstr "") }
    else { m with mIndex := 0, mValue := "" }
  else { m with mIndex := 0, mValue := "" }

/-! ## Spec-side readings and concrete rule instances used to settle claims -/

/-- The skip-if-first discard condition exactly as the specification words
it: discard when some other field already has a match at or before the
candidate's start offset and this field has no prior match of its own. -/
def c1SpecDiscard (field : String) (start : Int) (result : ResultMap) : Bool :=
  result.any (fun p => p.1 != field && decide (p.2.mIndex ≤ start)) &&
    (lookupRM result field).isNone

/-- A rule resolving the year field at offset 2 of the title used for C1. -/
def c1Year : Handler :=
  { field := "year", pattern := some (fun t => if t = "xxYzzR" then [2, 3] else []) }

/-- A skip-if-first region rule whose candidate starts at offset 5, after
the year match, in the title used for C1. -/
def c1Region : Handler :=
  { field := "region", skipIfFirst := true,
    pattern := some (fun t => if t = "xxYzzR" then [5, 6] else []) }

/-- The boundary update exactly as claim C2 words it: same shrink step, but
the retraction of a removed skip-from-title match is unconditional, without
the source's requirement that the match offset still be below the
boundary. -/
def c2SpecUpdate (skipFromTitle removed : Bool) (mIndex : Int) (mLen : Nat)
    (endOfTitle : Int) : Int :=
  let e1 := if skipFromTitle = false ∧ mIndex ≠ 0 ∧ mIndex < endOfTitle then mIndex else endOfTitle
  if removed = true ∧ skipFromTitle = true then e1 - (mLen : Int) else e1

/-- A rule that shrinks the boundary to offset 2 in the title used for C2. -/
def c2First : Handler :=
  { field := "edition", pattern := some (fun t => if t = "abXcdZZ" then [2, 3] else []) }

/-- A removed skip-from-title rule matching at offset 5, past the already
shrunk boundary, in the title used for C2. -/
def c2Second : Handler :=
  { field := "quality", skipFromTitle := true, remove := true,
    pattern := some (fun t => if t = "abXcdZZ" then [5, 7] else []) }

/-- A removed skip-from-title rule matching at offset 0 (like the PPV rule
of the table), used for C2's offset-zero conjunct. -/
def c2AtZero : Handler :=
  { field := "quality", skipFromTitle := true, remove := true,
    pattern := some (fun t => if t = "PPV event" then [0, 3] else []) }

/-- A year rule whose pattern never matches, used for C2's witness. -/
def c2Unmatched : Handler :=
  { field := "year", pattern := some (fun _ => []) }

/-- A rule whose pattern reports a non-participating capture group, so that
reading the group's span faults at runtime; used for C3. -/
def c3Faulting : Handler :=
  { field := "codec", pattern := some (fun _ => [0, 1, -1, -1]) }

/-- A region rule matching at offset 0 of the title used for C10. -/
def c10RegionFirst : Handler :=
  { field := "region", pattern := some (fun t => if t = "R1 R2 xyz" then [0, 2] else []) }

/-- A codec rule matching at offset 6 of the title used for C10. -/
def c10Codec : Handler :=
  { field := "codec", pattern := some (fun t => if t = "R1 R2 xyz" then [6, 9] else []) }

/-- A keep-matching skip-if-first region rule whose candidate starts at
offset 3 of the title used for C10: its own prior match is at or before the
candidate, while the only other field's match is after it. -/
def c10RegionSecond : Handler :=
  { field := "region", keepMatching := true, skipIfFirst := true,
    pattern := some (fun t => if t = "R1 R2 xyz" then [3, 5] else []) }

/-- A rule with no skip-from-title flag whose match lies inside the leading
bracketed segment of the title used for C9. -/
def c9Inside : Handler :=
  { field := "codec", pattern := some (fun t => if t = "[ABC] t" then [1, 4] else []) }

/-- Modelled from the spec: the reduced rule list as claim C8 describes it.
A rule "with no declared field restriction" is read as one whose field name
is empty, the only way a Go rule can fail to declare a field; such rules do
not exist as a separate concept in the source, which is what the claim
misses. -/
def c8SpecSelected (allHandlers : List Handler) (fieldNames : List String) : List Handler :=
  allHandlers.filter (fun h => fieldNames.contains h.field || h.field == "")

/-- A rule declaring no field, used to separate the two selections of C8. -/
def c8Unrestricted : Handler := { field := "" }

/-- A year rule with a requested field name, used for C8's witness. -/
def c8YearRule : Handler := { field := "year" }

/-! ## Helper lemmas -/

/-- `List.any` only depends on the multiset of elements, so the Go map
iterations that compute existentials are order-independent. -/
theorem any_perm {α : Type} (p : α → Bool) {l l' : List α} (h : l.Perm l') :
    l.any p = l'.any p := by
  cases hb : l'.any p with
  | false =>
    rw [List.any_eq_false] at hb ⊢
    intro x hx
    exact hb x (h.mem_iff.mp hx)
  | true =>
    rw [List.any_eq_true] at hb ⊢
    obtain ⟨x, hx, hpx⟩ := hb
    exact ⟨x, h.mem_iff.mpr hx, hpx⟩

/-- A rule whose pattern finds no match in the current title leaves the
engine state untouched. -/
theorem goStep_no_match (st : EngState) (h : Handler) (p : String → List Int)
    (hp : h.pattern = some p) (hm : p st.title = []) : goStep st h = .ok st := by
  have hph : goPatternPhase st h = .ok .skip := by
    unfold goPatternPhase
    rw [hp]
    by_cases hc : ((lookupRM st.result h.field).isSome && !h.keepMatching) = true
    · simp [hc]
    · simp [hc, hm]
  unfold goStep
  rw [hph]
  rfl

/-- Folding the rule loop over rules that all leave the state unchanged
returns the initial state. -/
theorem foldlM_goStep_fixed (hs : List Handler) (st : EngState)
    (hfix : ∀ h ∈ hs, goStep st h = .ok st) :
    hs.foldlM goStep st = .ok st := by
  induction hs with
  | nil => rfl
  | cons h t ih =>
    rw [List.foldlM_cons, hfix h (by simp)]
    exact ih (fun g hg => hfix g (by simp [hg]))

/-- Slicing a string from 0 to its own length returns the string. -/
theorem substrGo_zero_len (s : String) : substrGo s 0 (s.length : Int) = .ok s := by
  unfold substrGo
  rw [if_pos ⟨le_refl 0, Int.natCast_nonneg _, le_refl _⟩]
  cases s with
  | mk d =>
    simp [String.length]

/-- When no rule matches, the whole engine pass returns the normalized
title, an empty field-state map, and the untouched boundary. -/
theorem goParseCore_no_match (t : String) (hs : List Handler)
    (hno : ∀ h ∈ hs, ∃ p, h.pattern = some p ∧ p (normalizeWs t) = []) :
    goParseCore t hs = .ok ⟨normalizeWs t, [], ((normalizeWs t).length : Int)⟩ := by
  unfold goParseCore
  apply foldlM_goStep_fixed
  intro h hh
  obtain ⟨p, hp, hm⟩ := hno h hh
  exact goStep_no_match _ h p hp hm

/-- When no rule matches, the result is all defaults and the clean title is
the cleanup collaborator applied to the full normalized input. -/
theorem goParse_no_match (f : String → String) (t : String) (hs : List Handler)
    (hno : ∀ h ∈ hs, ∃ p, h.pattern = some p ∧ p (normalizeWs t) = []) :
    goParse f t hs = { title := f (normalizeWs t) } := by
  unfold goParse goParseE
  rw [goParseCore_no_match t hs hno]
  have hsub : substrGo (normalizeWs t) 0
      (max (min ((normalizeWs t).length : Int) (((normalizeWs t)).length : Int)) 0) =
      .ok (normalizeWs t) := by
    rw [min_self, max_eq_left (Int.natCast_nonneg _)]
    exact substrGo_zero_len _
  simp only [Except.bind, bind]
  rw [hsub]
  rfl

/-! ## Claim C1 -/

/-- C1: the claim is false on the code.  In a state where the year field has
a match at offset 2, a skip-if-first candidate starting at offset 5
satisfies the claim's discard condition (another field has a match at or
before offset 5 and the region field has no prior match of its own), yet
the engine's check does not skip: both the decision procedure and a full
engine run keep the region match. -/
theorem ptt_C1_counterexample :
    c1SpecDiscard "region" 5
      [("year", { mIndex := 2, mValue := "Y", value := some (.vstr "Y"), processed := true })] = true ∧
    goSkipIfFirst "region" 5
      [("year", { mIndex := 2, mValue := "Y", value := some (.vstr "Y"), processed := true })] = false ∧
    (goParse id "xxYzzR" [c1Year, c1Region]).region = "R" ∧
    (goParse id "xxYzzR" [c1Year, c1Region]).year = "Y" :=
  ⟨rfl, rfl, rfl, rfl⟩

/-- C1 (amended): a skip-if-first candidate is discarded exactly when at
least one other field already has a match and every other field's recorded
match starts strictly after the candidate's start offset; the candidate
field's own prior match is ignored by the check. -/
theorem ptt_C1_prop (field : String) (start : Int) (result : ResultMap) :
    goSkipIfFirst field start result = true ↔
      ((∃ p ∈ result, p.1 ≠ field) ∧ ∀ p ∈ result, p.1 ≠ field → start < p.2.mIndex) := by
  unfold goSkipIfFirst
  simp only [Bool.and_eq_true, Bool.not_eq_true', List.any_eq_true, List.any_eq_false,
    Bool.and_eq_true, bne_iff_ne, decide_eq_true_eq, not_and, not_le]

/-- Witness for C1: with one other field matched at offset 7, a candidate
at offset 5 is discarded. -/
theorem ptt_C1_witness :
    goSkipIfFirst "region" 5 [("year", { mIndex := 7 })] = true :=
  (ptt_C1_prop "region" 5 [("year", { mIndex := 7 })]).mpr (by decide)

/-! ## Claim C4 -/

/-- C4: the claim is false on the code.  The transform does not nullify
"1,3": the token list [1, 3] is exactly two increasing numbers, so it is
expanded to the full inclusive run [1, 2, 3] regardless of the separator,
and the expanded list passes the consecutive check. -/
theorem ptt_C4_counterexample :
    to_int_range "1,3" = some [1, 2, 3] ∧ (to_int_range "1,3").isNone = false :=
  ⟨rfl, rfl⟩

/-- C4 (amended): the transform splits on non-digit runs, coerces failed
tokens to 0, expands exactly-two increasing numbers to the full inclusive
run, and nullifies the result exactly when the possibly-expanded list is
not strictly consecutive ascending; it maps "1-5" to [1,2,3,4,5], maps
"1,3" to [1,2,3] (any two increasing numbers are expanded, whatever the
separator), nullifies "5-1", and nullifies the gapped list "1,3,4". -/
theorem ptt_C4_prop :
    to_int_range "1-5" = some [1, 2, 3, 4, 5] ∧
    to_int_range "5-1" = none ∧
    to_int_range "1,3,4" = none ∧
    to_int_range "1,3" = some [1, 2, 3] ∧
    (∀ a b : Int, a < b →
        expandTwoAscending [a, b] = (List.range (b - a).toNat.succ).map (fun i => a + i)) ∧
    (∀ v : String, to_int_range v = none ↔
        isConsecutive (expandTwoAscending (intRangeNums v)) = false) ∧
    (∀ l : List Int, isConsecutive l = true ↔ l.Chain' (fun x y => y = x + 1)) := by
  refine ⟨rfl, rfl, rfl, rfl, ?_, ?_, ?_⟩
  · intro a b hab
    simp [expandTwoAscending, hab]
  · intro v
    unfold to_int_range
    cases hc : isConsecutive (expandTwoAscending (intRangeNums v)) <;> simp [hc]
  · intro l
    induction l with
    | nil => simp [isConsecutive]
    | cons a t ih =>
      cases t with
      | nil => simp [isConsecutive]
      | cons b t2 =>
        rw [List.chain'_cons, ← ih]
        simp only [isConsecutive, Bool.and_eq_true, decide_eq_true_eq]
        constructor
        · rintro ⟨h1, h2⟩
          exact ⟨h1.symm, h2⟩
        · rintro ⟨h1, h2⟩
          exact ⟨h1.symm, h2⟩

/-- Witness for C4: the two increasing numbers 3 and 6 expand to the run
from 3 to 6. -/
theorem ptt_C4_witness : expandTwoAscending [3, 6] = [3, 4, 5, 6] :=
  (ptt_C4_prop.2.2.2.2.1 3 6 (by decide)).trans (by decide)

/-! ## Claim C5 -/

/-- C5: the two computations of the engine that iterate the unordered
field-state map — the skip-if-first check and the group false-positive
processor — are invariant under any reordering of the map's entries, so the
iteration order of the Go map cannot change the parse result. -/
theorem ptt_C5_prop :
    (∀ (field : String) (start : Int) (l l' : ResultMap), l.Perm l' →
        goSkipIfFirst field start l = goSkipIfFirst field start l') ∧
    (∀ (m : ParseMeta) (l l' : ResultMap), l.Perm l' →
        groupFalsePositive m l = groupFalsePositive m l') := by
  constructor
  · intro field start l l' h
    unfold goSkipIfFirst
    rw [any_perm _ h, any_perm _ h]
  · intro m l l' h
    unfold groupFalsePositive
    rw [any_perm _ h]

/-- Witness for C5: swapping two map entries changes neither decision. -/
theorem ptt_C5_witness :
    goSkipIfFirst "x" 0 [("a", { mIndex := 1 }), ("b", { mIndex := 2 })] =
      goSkipIfFirst "x" 0 [("b", { mIndex := 2 }), ("a", { mIndex := 1 })] ∧
    groupFalsePositive { mIndex := 2, mValue := "[AB]" }
        [("a", { mIndex := 1 }), ("b", { mIndex := 2 })] =
      groupFalsePositive { mIndex := 2, mValue := "[AB]" }
        [("b", { mIndex := 2 }), ("a", { mIndex := 1 })] :=
  ⟨ptt_C5_prop.1 "x" 0 _ _ (List.Perm.swap _ _ _),
   ptt_C5_prop.2 _ _ _ (List.Perm.swap _ _ _)⟩

/-! ## Claim C6 -/

/-- C6: Normalize is idempotent.  Applying it twice equals applying it
once, and on a result whose idempotence flag is already set it performs no
change at all. -/
theorem ptt_C6_prop :
    (∀ r : Result, r.normalize.normalize = r.normalize) ∧
    (∀ r : Result, r.is_normalized = true → r.normalize = r) := by
  constructor
  · intro r
    by_cases he : r.err.isSome
    · simp [Result.normalize, he]
    · by_cases hn : r.is_normalized
      · simp [Result.normalize, he, hn]
      · simp [Result.normalize, he, hn]
  · intro r h
    by_cases he : r.err.isSome <;> simp [Result.normalize, he, h]

/-- Witness for C6: a result with the flag set is returned unchanged. -/
theorem ptt_C6_witness :
    ({ is_normalized := true } : Result).normalize = { is_normalized := true } :=
  ptt_C6_prop.2 _ rfl

/-! ## Claim C7 -/

/-- C7: the year transform splits on non-digit runs; a single token passes
through unchanged; with two numeric tokens the first is the start year and
the second the end year, an end year below 100 is put into the start year's
century, and the value is emptied exactly when the computed end year is at
most the start year; on concrete inputs: "2020-25" becomes "2020-2025",
"1999-05" is emptied (the reinterpreted end 1905 is not after 1999),
"2005-1999" is emptied, and "1999" passes through. -/
theorem ptt_C7_prop :
    (∀ s t, splitND s = [t] → to_year s = t) ∧
    (∀ s a b x y, splitND s = [a, b] → atoiGo b = some y → atoiGo a = some x →
        to_year s =
          (if (if y < 100 then y + x - x % 100 else y) ≤ x then ""
           else toString x ++ "-" ++ toString (if y < 100 then y + x - x % 100 else y))) ∧
    to_year "2020-25" = "2020-2025" ∧
    to_year "1999-05" = "" ∧
    to_year "2005-1999" = "" ∧
    to_year "1999" = "1999" := by
  refine ⟨?_, ?_, rfl, rfl, rfl, rfl⟩
  · intro s t h
    simp [to_year, h]
  · intro s a b x y hs hy hx
    simp [to_year, hs, hy, hx]

/-- Witness for C7: a concrete two-token application with the century
reinterpretation. -/
theorem ptt_C7_witness : to_year "12-15" = "12-15" :=
  (ptt_C7_prop.2.1 "12-15" "12" "15" 12 15 rfl rfl rfl).trans (by decide)

/-! ## Claim C2 -/

/-- C2: the claim is false on the code in two places.  First, the
retraction of a removed skip-from-title match is not unconditional: in a
run where the boundary was already shrunk to 2, a removed skip-from-title
match at offset 5 leaves the boundary at 2, while the claim's reading
retracts it to 0.  Second, an offset-0 match can shrink the boundary: a
removed skip-from-title match of length 3 at offset 0 retracts the
boundary of a 9-character title from 9 to 6. -/
theorem ptt_C2_counterexample :
    (goParseCore "abXcdZZ" [c2First, c2Second]).map EngState.endOfTitle = .ok 2 ∧
    c2SpecUpdate true true 5 2 2 = 0 ∧
    goBoundaryUpdate true true 5 2 2 = 2 ∧
    (goBoundaryUpdate true true 5 2 2 == c2SpecUpdate true true 5 2 2) = false ∧
    (goParseCore "PPV event" [c2AtZero]).map EngState.endOfTitle = .ok 6 ∧
    (6 : Int) < 9 :=
  ⟨rfl, rfl, rfl, rfl, rfl, by decide⟩

/-- C2 (amended): a surviving rule application shrinks the boundary to its
match offset exactly when it is not skip-from-title, its offset is nonzero,
and its offset is below the boundary; when any of those fail, the boundary
only changes through the retraction step, which fires when the match was
removed, skip-from-title, and its offset is still below the boundary;
consequently a parse in which no rule matches yields the cleanup pass
applied to the whole normalized input as the clean title, with every other
field at its zero value. -/
theorem ptt_C2_prop :
    (∀ (removed : Bool) (idx : Int) (len : Nat) (e : Int),
        idx ≠ 0 → idx < e → goBoundaryUpdate false removed idx len e = idx) ∧
    (∀ (sft removed : Bool) (idx : Int) (len : Nat) (e : Int),
        sft = true ∨ idx = 0 ∨ e ≤ idx →
        goBoundaryUpdate sft removed idx len e =
          if removed = true ∧ sft = true ∧ idx < e then e - (len : Int) else e) ∧
    (∀ (f : String → String) (t : String) (hs : List Handler),
        (∀ h ∈ hs, ∃ p, h.pattern = some p ∧ p (normalizeWs t) = []) →
        goParse f t hs = { title := f (normalizeWs t) }) := by
  refine ⟨?_, ?_, goParse_no_match⟩
  · intro removed idx len e h1 h2
    cases removed <;> simp only [goBoundaryUpdate] <;> split_ifs <;> simp_all
  · intro sft removed idx len e hcase
    cases sft <;> cases removed <;> simp only [goBoundaryUpdate] <;> split_ifs <;>
      simp_all <;> omega

/-- Witness for C2: a nonzero in-bounds offset shrinks, a skip-from-title
removed match retracts by the removed length, and a parser with one rule
that never matches returns the cleaned full input as the title. -/
theorem ptt_C2_witness :
    goBoundaryUpdate false false 3 1 7 = 3 ∧
    goBoundaryUpdate true true 2 1 7 = 6 ∧
    goParse id "abc" [c2Unmatched] = { title := "abc" } := by
  have h3 : goParse id "abc" [c2Unmatched] = { title := id (normalizeWs "abc") } := by
    apply ptt_C2_prop.2.2
    intro h hh
    rw [List.mem_singleton] at hh
    subst hh
    exact ⟨_, rfl, rfl⟩
  refine ⟨ptt_C2_prop.1 false 3 1 7 (by decide) (by decide),
    (ptt_C2_prop.2.1 true true 2 1 7 (Or.inl rfl)).trans (by decide), h3.trans rfl⟩

/-! ## Claim C3 -/

/-- Reducing an `Except` bind over a success. -/
theorem exbind_ok {ε α β : Type} (a : α) (f : α → Except ε β) :
    ((Except.ok a : Except ε α) >>= f) = f a := rfl

/-- Reducing an `Except` bind over a fault. -/
theorem exbind_error {ε α β : Type} (e : ε) (f : α → Except ε β) :
    ((Except.error e : Except ε α) >>= f) = .error e := rfl

set_option maxHeartbeats 2000000 in
/-- A type-assertion step of the assembly loop never changes the error
slot of the record it builds. -/
theorem applyFieldGo_err (r : Result) (fi : String) (v? : Option Value) (r' : Result)
    (h : applyFieldGo r fi v? = .ok r') : r'.err = r.err := by
  unfold applyFieldGo at h
  by_cases h1 : (fi == "audio") = true
  · rw [if_pos h1] at h
    cases v? with
    | none => exact Except.noConfusion h
    | some v =>
      cases v with
      | vstr s => exact Except.noConfusion h
      | vbool b => exact Except.noConfusion h
      | vints l => exact Except.noConfusion h
      | vset l =>
        cases h
        rfl
  · rw [if_neg h1] at h
    by_cases h2 : (fi == "bitDepth") = true
    · rw [if_pos h2] at h
      cases v? with
      | none => exact Except.noConfusion h
      | some v =>
        cases v with
        | vstr s =>
          cases h
          rfl
        | vbool b => exact Except.noConfusion h
        | vints l => exact Except.noConfusion h
        | vset l => exact Except.noConfusion h
    · rw [if_neg h2] at h
      by_cases h3 : (fi == "channels") = true
      · rw [if_pos h3] at h
        cases v? with
        | none => exact Except.noConfusion h
        | some v =>
          cases v with
          | vstr s => exact Except.noConfusion h
          | vbool b => exact Except.noConfusion h
          | vints l => exact Except.noConfusion h
          | vset l =>
            cases h
            rfl
      · rw [if_neg h3] at h
        by_cases h4 : (fi == "codec") = true
        · rw [if_pos h4] at h
          cases v? with
          | none => exact Except.noConfusion h
          | some v =>
            cases v with
            | vstr s =>
              cases h
              rfl
            | vbool b => exact Except.noConfusion h
            | vints l => exact Except.noConfusion h
            | vset l => exact Except.noConfusion h
        · rw [if_neg h4] at h
          by_cases h5 : (fi == "commentary") = true
          · rw [if_pos h5] at h
            cases v? with
            | none => exact Except.noConfusion h
            | some v =>
              cases v with
              | vstr s => exact Except.noConfusion h
              | vbool b =>
                cases h
                rfl
              | vints l => exact Except.noConfusion h
              | vset l => exact Except.noConfusion h
          · rw [if_neg h5] at h
            by_cases h6 : (fi == "complete") = true
            · rw [if_pos h6] at h
              cases v? with
              | none => exact Except.noConfusion h
              | some v =>
                cases v with
                | vstr s => exact Except.noConfusion h
                | vbool b =>
                  cases h
                  rfl
                | vints l => exact Except.noConfusion h
                | vset l => exact Except.noConfusion h
            · rw [if_neg h6] at h
              by_cases h7 : (fi == "container") = true
              · rw [if_pos h7] at h
                cases v? with
                | none => exact Except.noConfusion h
                | some v =>
                  cases v with
                  | vstr s =>
                    cases h
                    rfl
                  | vbool b => exact Except.noConfusion h
                  | vints l => exact Except.noConfusion h
                  | vset l => exact Except.noConfusion h
              · rw [if_neg h7] at h
                by_cases h8 : (fi == "convert") = true
                · rw [if_pos h8] at h
                  cases v? with
                  | none => exact Except.noConfusion h
                  | some v =>
                    cases v with
                    | vstr s => exact Except.noConfusion h
                    | vbool b =>
                      cases h
                      rfl
                    | vints l => exact Except.noConfusion h
                    | vset l => exact Except.noConfusion h
                · rw [if_neg h8] at h
                  by_cases h9 : (fi == "date") = true
                  · rw [if_pos h9] at h
                    cases v? with
                    | none => exact Except.noConfusion h
                    | some v =>
                      cases v with
                      | vstr s =>
                        cases h
                        rfl
                      | vbool b => exact Except.noConfusion h
                      | vints l => exact Except.noConfusion h
                      | vset l => exact Except.noConfusion h
                  · rw [if_neg h9] at h
                    by_cases h10 : (fi == "documentary") = true
                    · rw [if_pos h10] at h
                      cases v? with
                      | none => exact Except.noConfusion h
                      | some v =>
                        cases v with
                        | vstr s => exact Except.noConfusion h
                        | vbool b =>
                          cases h
                          rfl
                        | vints l => exact Except.noConfusion h
                        | vset l => exact Except.noConfusion h
                    · rw [if_neg h10] at h
                      by_cases h11 : (fi == "dubbed") = true
                      · rw [if_pos h11] at h
                        cases v? with
                        | none => exact Except.noConfusion h
                        | some v =>
                          cases v with
                          | vstr s => exact Except.noConfusion h
                          | vbool b =>
                            cases h
                            rfl
                          | vints l => exact Except.noConfusion h
                          | vset l => exact Except.noConfusion h
                      · rw [if_neg h11] at h
                        by_cases h12 : (fi == "edition") = true
                        · rw [if_pos h12] at h
                          cases v? with
                          | none => exact Except.noConfusion h
                          | some v =>
                            cases v with
                            | vstr s =>
                              cases h
                              rfl
                            | vbool b => exact Except.noConfusion h
                            | vints l => exact Except.noConfusion h
                            | vset l => exact Except.noConfusion h
                        · rw [if_neg h12] at h
                          by_cases h13 : (fi == "episodeCode") = true
                          · rw [if_pos h13] at h
                            cases v? with
                            | none => exact Except.noConfusion h
                            | some v =>
                              cases v with
                              | vstr s =>
                                cases h
                                rfl
                              | vbool b => exact Except.noConfusion h
                              | vints l => exact Except.noConfusion h
                              | vset l => exact Except.noConfusion h
                          · rw [if_neg h13] at h
                            by_cases h14 : (fi == "episodes") = true
                            · rw [if_pos h14] at h
                              cases v? with
                              | none => exact Except.noConfusion h
                              | some v =>
                                cases v with
                                | vstr s => exact Except.noConfusion h
                                | vbool b => exact Except.noConfusion h
                                | vints l =>
                                  cases h
                                  rfl
                                | vset l => exact Except.noConfusion h
                            · rw [if_neg h14] at h
                              by_cases h15 : (fi == "extended") = true
                              · rw [if_pos h15] at h
                                cases v? with
                                | none => exact Except.noConfusion h
                                | some v =>
                                  cases v with
                                  | vstr s => exact Except.noConfusion h
                                  | vbool b =>
                                    cases h
                                    rfl
                                  | vints l => exact Except.noConfusion h
                                  | vset l => exact Except.noConfusion h
                              · rw [if_neg h15] at h
                                by_cases h16 : (fi == "extension") = true
                                · rw [if_pos h16] at h
                                  cases v? with
                                  | none => exact Except.noConfusion h
                                  | some v =>
                                    cases v with
                                    | vstr s =>
                                      cases h
                                      rfl
                                    | vbool b => exact Except.noConfusion h
                                    | vints l => exact Except.noConfusion h
                                    | vset l => exact Except.noConfusion h
                                · rw [if_neg h16] at h
                                  by_cases h17 : (fi == "group") = true
                                  · rw [if_pos h17] at h
                                    cases v? with
                                    | none => exact Except.noConfusion h
                                    | some v =>
                                      cases v with
                                      | vstr s =>
                                        cases h
                                        rfl
                                      | vbool b => exact Except.noConfusion h
                                      | vints l => exact Except.noConfusion h
                                      | vset l => exact Except.noConfusion h
                                  · rw [if_neg h17] at h
                                    by_cases h18 : (fi == "hardcoded") = true
                                    · rw [if_pos h18] at h
                                      cases v? with
                                      | none => exact Except.noConfusion h
                                      | some v =>
                                        cases v with
                                        | vstr s => exact Except.noConfusion h
                                        | vbool b =>
                                          cases h
                                          rfl
                                        | vints l => exact Except.noConfusion h
                                        | vset l => exact Except.noConfusion h
                                    · rw [if_neg h18] at h
                                      by_cases h19 : (fi == "hdr") = true
                                      · rw [if_pos h19] at h
                                        cases v? with
                                        | none => exact Except.noConfusion h
                                        | some v =>
                                          cases v with
                                          | vstr s => exact Except.noConfusion h
                                          | vbool b => exact Except.noConfusion h
                                          | vints l => exact Except.noConfusion h
                                          | vset l =>
                                            cases h
                                            rfl
                                      · rw [if_neg h19] at h
                                        by_cases h20 : (fi == "languages") = true
                                        · rw [if_pos h20] at h
                                          cases v? with
                                          | none => exact Except.noConfusion h
                                          | some v =>
                                            cases v with
                                            | vstr s => exact Except.noConfusion h
                                            | vbool b => exact Except.noConfusion h
                                            | vints l => exact Except.noConfusion h
                                            | vset l =>
                                              cases h
                                              rfl
                                        · rw [if_neg h20] at h
                                          by_cases h21 : (fi == "network") = true
                                          · rw [if_pos h21] at h
                                            cases v? with
                                            | none => exact Except.noConfusion h
                                            | some v =>
                                              cases v with
                                              | vstr s =>
                                                cases h
                                                rfl
                                              | vbool b => exact Except.noConfusion h
                                              | vints l => exact Except.noConfusion h
                                              | vset l => exact Except.noConfusion h
                                          · rw [if_neg h21] at h
                                            by_cases h22 : (fi == "proper") = true
                                            · rw [if_pos h22] at h
                                              cases v? with
                                              | none => exact Except.noConfusion h
                                              | some v =>
                                                cases v with
                                                | vstr s => exact Except.noConfusion h
                                                | vbool b =>
                                                  cases h
                                                  rfl
                                                | vints l => exact Except.noConfusion h
                                                | vset l => exact Except.noConfusion h
                                            · rw [if_neg h22] at h
                                              by_cases h23 : (fi == "region") = true
                                              · rw [if_pos h23] at h
                                                cases v? with
                                                | none => exact Except.noConfusion h
                                                | some v =>
                                                  cases v with
                                                  | vstr s =>
                                                    cases h
                                                    rfl
                                                  | vbool b => exact Except.noConfusion h
                                                  | vints l => exact Except.noConfusion h
                                                  | vset l => exact Except.noConfusion h
                                              · rw [if_neg h23] at h
                                                by_cases h24 : (fi == "remastered") = true
                                                · rw [if_pos h24] at h
                                                  cases v? with
                                                  | none => exact Except.noConfusion h
                                                  | some v =>
                                                    cases v with
                                                    | vstr s => exact Except.noConfusion h
                                                    | vbool b =>
                                                      cases h
                                                      rfl
                                                    | vints l => exact Except.noConfusion h
                                                    | vset l => exact Except.noConfusion h
                                                · rw [if_neg h24] at h
                                                  by_cases h25 : (fi == "repack") = true
                                                  · rw [if_pos h25] at h
                                                    cases v? with
                                                    | none => exact Except.noConfusion h
                                                    | some v =>
                                                      cases v with
                                                      | vstr s => exact Except.noConfusion h
                                                      | vbool b =>
                                                        cases h
                                                        rfl
                                                      | vints l => exact Except.noConfusion h
                                                      | vset l => exact Except.noConfusion h
                                                  · rw [if_neg h25] at h
                                                    by_cases h26 : (fi == "resolution") = true
                                                    · rw [if_pos h26] at h
                                                      cases v? with
                                                      | none => exact Except.noConfusion h
                                                      | some v =>
                                                        cases v with
                                                        | vstr s =>
                                                          cases h
                                                          rfl
                                                        | vbool b => exact Except.noConfusion h
                                                        | vints l => exact Except.noConfusion h
                                                        | vset l => exact Except.noConfusion h
                                                    · rw [if_neg h26] at h
                                                      by_cases h27 : (fi == "retail") = true
                                                      · rw [if_pos h27] at h
                                                        cases v? with
                                                        | none => exact Except.noConfusion h
                                                        | some v =>
                                                          cases v with
                                                          | vstr s => exact Except.noConfusion h
                                                          | vbool b =>
                                                            cases h
                                                            rfl
                                                          | vints l => exact Except.noConfusion h
                                                          | vset l => exact Except.noConfusion h
                                                      · rw [if_neg h27] at h
                                                        by_cases h28 : (fi == "seasons") = true
                                                        · rw [if_pos h28] at h
                                                          cases v? with
                                                          | none => exact Except.noConfusion h
                                                          | some v =>
                                                            cases v with
                                                            | vstr s => exact Except.noConfusion h
                                                            | vbool b => exact Except.noConfusion h
                                                            | vints l =>
                                                              cases h
                                                              rfl
                                                            | vset l => exact Except.noConfusion h
                                                        · rw [if_neg h28] at h
                                                          by_cases h29 : (fi == "size") = true
                                                          · rw [if_pos h29] at h
                                                            cases v? with
                                                            | none => exact Except.noConfusion h
                                                            | some v =>
                                                              cases v with
                                                              | vstr s =>
                                                                cases h
                                                                rfl
                                                              | vbool b => exact Except.noConfusion h
                                                              | vints l => exact Except.noConfusion h
                                                              | vset l => exact Except.noConfusion h
                                                          · rw [if_neg h29] at h
                                                            by_cases h30 : (fi == "site") = true
                                                            · rw [if_pos h30] at h
                                                              cases v? with
                                                              | none => exact Except.noConfusion h
                                                              | some v =>
                                                                cases v with
                                                                | vstr s =>
                                                                  cases h
                                                                  rfl
                                                                | vbool b => exact Except.noConfusion h
                                                                | vints l => exact Except.noConfusion h
                                                                | vset l => exact Except.noConfusion h
                                                            · rw [if_neg h30] at h
                                                              by_cases h31 : (fi == "quality") = true
                                                              · rw [if_pos h31] at h
                                                                cases v? with
                                                                | none => exact Except.noConfusion h
                                                                | some v =>
                                                                  cases v with
                                                                  | vstr s =>
                                                                    cases h
                                                                    rfl
                                                                  | vbool b => exact Except.noConfusion h
                                                                  | vints l => exact Except.noConfusion h
                                                                  | vset l => exact Except.noConfusion h
                                                              · rw [if_neg h31] at h
                                                                by_cases h32 : (fi == "releaseTypes") = true
                                                                · rw [if_pos h32] at h
                                                                  cases v? with
                                                                  | none => exact Except.noConfusion h
                                                                  | some v =>
                                                                    cases v with
                                                                    | vstr s => exact Except.noConfusion h
                                                                    | vbool b => exact Except.noConfusion h
                                                                    | vints l => exact Except.noConfusion h
                                                                    | vset l =>
                                                                      cases h
                                                                      rfl
                                                                · rw [if_neg h32] at h
                                                                  by_cases h33 : (fi == "subbed") = true
                                                                  · rw [if_pos h33] at h
                                                                    cases v? with
                                                                    | none => exact Except.noConfusion h
                                                                    | some v =>
                                                                      cases v with
                                                                      | vstr s => exact Except.noConfusion h
                                                                      | vbool b =>
                                                                        cases h
                                                                        rfl
                                                                      | vints l => exact Except.noConfusion h
                                                                      | vset l => exact Except.noConfusion h
                                                                  · rw [if_neg h33] at h
                                                                    by_cases h34 : (fi == "threeD") = true
                                                                    · rw [if_pos h34] at h
                                                                      cases v? with
                                                                      | none => exact Except.noConfusion h
                                                                      | some v =>
                                                                        cases v with
                                                                        | vstr s =>
                                                                          cases h
                                                                          rfl
                                                                        | vbool b => exact Except.noConfusion h
                                                                        | vints l => exact Except.noConfusion h
                                                                        | vset l => exact Except.noConfusion h
                                                                    · rw [if_neg h34] at h
                                                                      by_cases h35 : (fi == "uncensored") = true
                                                                      · rw [if_pos h35] at h
                                                                        cases v? with
                                                                        | none => exact Except.noConfusion h
                                                                        | some v =>
                                                                          cases v with
                                                                          | vstr s => exact Except.noConfusion h
                                                                          | vbool b =>
                                                                            cases h
                                                                            rfl
                                                                          | vints l => exact Except.noConfusion h
                                                                          | vset l => exact Except.noConfusion h
                                                                      · rw [if_neg h35] at h
                                                                        by_cases h36 : (fi == "unrated") = true
                                                                        · rw [if_pos h36] at h
                                                                          cases v? with
                                                                          | none => exact Except.noConfusion h
                                                                          | some v =>
                                                                            cases v with
                                                                            | vstr s => exact Except.noConfusion h
                                                                            | vbool b =>
                                                                              cases h
                                                                              rfl
                                                                            | vints l => exact Except.noConfusion h
                                                                            | vset l => exact Except.noConfusion h
                                                                        · rw [if_neg h36] at h
                                                                          by_cases h37 : (fi == "upscaled") = true
                                                                          · rw [if_pos h37] at h
                                                                            cases v? with
                                                                            | none => exact Except.noConfusion h
                                                                            | some v =>
                                                                              cases v with
                                                                              | vstr s => exact Except.noConfusion h
                                                                              | vbool b =>
                                                                                cases h
                                                                                rfl
                                                                              | vints l => exact Except.noConfusion h
                                                                              | vset l => exact Except.noConfusion h
                                                                          · rw [if_neg h37] at h
                                                                            by_cases h38 : (fi == "volumes") = true
                                                                            · rw [if_pos h38] at h
                                                                              cases v? with
                                                                              | none => exact Except.noConfusion h
                                                                              | some v =>
                                                                                cases v with
                                                                                | vstr s => exact Except.noConfusion h
                                                                                | vbool b => exact Except.noConfusion h
                                                                                | vints l =>
                                                                                  cases h
                                                                                  rfl
                                                                                | vset l => exact Except.noConfusion h
                                                                            · rw [if_neg h38] at h
                                                                              by_cases h39 : (fi == "year") = true
                                                                              · rw [if_pos h39] at h
                                                                                cases v? with
                                                                                | none => exact Except.noConfusion h
                                                                                | some v =>
                                                                                  cases v with
                                                                                  | vstr s =>
                                                                                    cases h
                                                                                    rfl
                                                                                  | vbool b => exact Except.noConfusion h
                                                                                  | vints l => exact Except.noConfusion h
                                                                                  | vset l => exact Except.noConfusion h
                                                                              · rw [if_neg h39] at h
                                                                                cases h
                                                                                rfl

/-- The assembly loop never changes the error slot. -/
theorem goAssemble_foldl_err (res : ResultMap) (r0 r : Result)
    (h : res.foldlM (fun r p => applyFieldGo r p.1 p.2.value) r0 = .ok r) : r.err = r0.err := by
  induction res generalizing r0 with
  | nil =>
    cases h
    rfl
  | cons p t ih =>
    rw [List.foldlM_cons] at h
    cases hap : applyFieldGo r0 p.1 p.2.value with
    | error e =>
      rw [hap, exbind_error] at h
      exact Except.noConfusion h
    | ok r1 =>
      rw [hap, exbind_ok] at h
      rw [ih r1 h]
      exact applyFieldGo_err r0 p.1 p.2.value r1 hap

/-- C3: any runtime fault raised during rule evaluation is caught by the
recover barrier rather than propagating: the returned record then carries
the fault in its error slot with every other field left at its zero value;
and conversely a fault-free pass returns a record whose error slot is
nil. -/
theorem ptt_C3_prop (f : String → String) (t : String) (hs : List Handler) :
    (∀ e, goParseE f t hs = .error e → goParse f t hs = { err := some e }) ∧
    (∀ r, goParseE f t hs = .ok r → goParse f t hs = r ∧ r.err = none) := by
  constructor
  · intro e he
    unfold goParse
    rw [he]
  · intro r hr
    refine ⟨by unfold goParse; rw [hr], ?_⟩
    unfold goParseE at hr
    cases hc : goParseCore t hs with
    | error e =>
      rw [hc, exbind_error] at hr
      exact Except.noConfusion hr
    | ok st =>
      rw [hc, exbind_ok] at hr
      cases ha : goAssemble st.result with
      | error e =>
        rw [ha, exbind_error] at hr
        exact Except.noConfusion hr
      | ok r1 =>
        rw [ha, exbind_ok] at hr
        cases hsub : substrGo st.title 0 (max (min st.endOfTitle (st.title.length : Int)) 0) with
        | error e =>
          rw [hsub, exbind_error] at hr
          exact Except.noConfusion hr
        | ok tt =>
          rw [hsub, exbind_ok] at hr
          have h1 : r1.err = none := by
            unfold goAssemble at ha
            exact goAssemble_foldl_err st.result {} r1 ha
          rw [← Except.ok.inj hr]
          exact h1

/-- Witness for C3: a rule whose value group did not participate in the
match makes the engine read a negative slice bound; the fault is caught and
the result is the zero record carrying the error. -/
theorem ptt_C3_witness :
    goParse id "ab" [c3Faulting] = { err := some .indexOutOfRange } :=
  (ptt_C3_prop id "ab" [c3Faulting]).1 .indexOutOfRange rfl

/-! ## Claim C8 -/

/-- C8: the claim is false on the code.  The reduced rule list does not
keep rules with no declared field restriction: a rule whose field is not
among the requested names is dropped even if it declares no field at all,
so the code's selection is empty where the claim's selection keeps the
unrestricted rule, and the two parses differ. -/
theorem ptt_C8_counterexample :
    ([c8Unrestricted].filter (fun h => (["year"] : List String).contains h.field)) = [] ∧
    c8SpecSelected [c8Unrestricted] ["year"] = [c8Unrestricted] ∧
    getPartialParser id [c8Unrestricted] ["year"] "abc" = { title := "abc" } ∧
    goParse id "abc" (c8SpecSelected [c8Unrestricted] ["year"]) = { err := some .nilDereference } ∧
    ((getPartialParser id [c8Unrestricted] ["year"] "abc" ==
        goParse id "abc" (c8SpecSelected [c8Unrestricted] ["year"])) = false) :=
  ⟨rfl, rfl, rfl, rfl, rfl⟩

/-- C8 (amended): the partial parser is built from the reduced rule list
holding exactly the rules whose field is among the requested names, in
original table order (a sublist of the table), and the returned function on
any title equals running the engine with that reduced rule list. -/
theorem ptt_C8_prop (f : String → String) (hs : List Handler) (names : List String)
    (title : String) :
    getPartialParser f hs names title =
      goParse f title (hs.filter (fun h => names.contains h.field)) ∧
    (∀ h : Handler, h ∈ hs.filter (fun h => names.contains h.field) ↔
        h ∈ hs ∧ names.contains h.field = true) ∧
    (hs.filter (fun h => names.contains h.field)).Sublist hs := by
  refine ⟨rfl, ?_, List.filter_sublist hs⟩
  intro h
  simp [List.mem_filter]

/-- Witness for C8: the partial parser for the year field equals the engine
run with the filtered table. -/
theorem ptt_C8_witness :
    getPartialParser id [c8YearRule] ["year"] "zz" =
      goParse id "zz" ([c8YearRule].filter (fun h => (["year"] : List String).contains h.field)) :=
  (ptt_C8_prop id [c8YearRule] ["year"] "zz").1

/-! ## Claim C9 -/

/-- C9: whenever the raw matched text is contained in the leading bracketed
segment of the current title, the Go engine's effective skip-from-title
flag for that application is true even if the rule's own flag is false, and
with the flag forced true the boundary update never shrinks the boundary to
the match offset — only the removal retraction can change it; a full run on
a bracket-led title whose only rule matches inside the bracket leaves the
boundary at the title length. -/
theorem ptt_C9_prop :
    (∀ (h : Handler) (title raw : String),
        containsGo (findBeforeTitle title) raw = true → goEffectiveSkip h title raw = true) ∧
    (∀ (removed : Bool) (idx : Int) (len : Nat) (e : Int),
        goBoundaryUpdate true removed idx len e =
          if removed = true ∧ idx < e then e - (len : Int) else e) ∧
    (goParseCore "[ABC] t" [c9Inside]).map EngState.endOfTitle = .ok 7 := by
  refine ⟨?_, ?_, rfl⟩
  · intro h title raw hc
    unfold goEffectiveSkip
    rw [hc]
    simp
  · intro removed idx len e
    cases removed <;> simp only [goBoundaryUpdate] <;> split_ifs <;> simp_all

/-- Witness for C9: a raw match equal to the content of the leading bracket
forces the effective flag. -/
theorem ptt_C9_witness :
    goEffectiveSkip { field := "codec" } "[AB] t" "AB" = true :=
  ptt_C9_prop.1 { field := "codec" } "[AB] t" "AB" rfl

/-! ## Claim C10 -/

/-- C10: the Kotlin port and the Go engine disagree.  On the same title and
the same three translated rules, the Go skip-if-first check discards the
second region candidate (no other field's match is at or before offset 3),
leaving region "R1", while the Kotlin check also counts the region field's
own earlier match at offset 0 and keeps the candidate, overwriting region
to "R2"; the assembled results differ.  Moreover, the Kotlin port computes
its bracket-segment skip-from-title override but never uses it: on a
bracket-led title the computed flag is true, yet the Kotlin boundary
shrinks to the match offset where the Go boundary stays at the title
length. -/
theorem ptt_C10_prop (f : String → String) :
    (goParse f "R1 R2 xyz" [c10RegionFirst, c10Codec, c10RegionSecond]).region = "R1" ∧
    (ktParse f "R1 R2 xyz" [c10RegionFirst, c10Codec, c10RegionSecond]).region = "R2" ∧
    ((goParse id "R1 R2 xyz" [c10RegionFirst, c10Codec, c10RegionSecond] ==
        ktParse id "R1 R2 xyz" [c10RegionFirst, c10Codec, c10RegionSecond]) = false) ∧
    ktShouldSkipFromTitle "[ABC] t" "ABC" = true ∧
    (goParseCore "[ABC] t" [c9Inside]).map EngState.endOfTitle = .ok 7 ∧
    (ktParseCore "[ABC] t" [c9Inside]).map EngState.endOfTitle = .ok 1 :=
  ⟨rfl, rfl, rfl, rfl, rfl, rfl⟩

end PTT
